import Mathlib

/-!
Verification of the `sync-branches` GitHub Action (final revision of
`src/main.ts`).  The remote platform (Octokit) is modelled as an explicit
environment `Env` of responses; every remote request a reconciliation run
issues is recorded in a trace of `Action`s, and remote label state is threaded
explicitly.  Octokit client instances are modelled by their identity (a `Nat`):
the only thing the program ever does with the two clients besides issuing
requests is compare them with `===`.
-/

namespace SyncBranches

/-- Failures the remote API can produce, distinguished so that theorems can
speak about "not found" versus permission or network failures. -/
inductive ApiError where
  | notFound
  | permission
  | network
deriving DecidableEq, Repr

/-- An open pull request as returned by `pulls.list` / `pulls.create`:
the fields `handlePushToSourceBranch` / `handlePushToTargetBranch` read. -/
structure PR where
  number : Nat
  headRef : String
  baseRef : String
  htmlUrl : String
  labels : List String
deriving DecidableEq, Repr

/-- `ConflictSummary` from the source: which of the two merge attempts into
the intermediate branch failed. -/
structure ConflictSummary where
  sourceConflict : Bool
  targetConflict : Bool
deriving DecidableEq, Repr

/-- The `PRUpdate` output record. -/
structure PRUpdate where
  sourceBranch : String
  targetBranch : String
  headBranch : String
  baseBranch : String
  url : String
deriving DecidableEq, Repr

/-- The `EventContext` structure of the source.  The two Octokit instances are
modelled by identity tokens; `prOctokit = actionsOctokit` models the case where
`PR_CREATE_TOKEN` was absent and both names are the same object. -/
structure EventContext where
  owner : String
  repo : String
  pushedBranch : String
  useIntermediateBranch : Bool
  sourceBranchPattern : String
  targetBranchPattern : String
  prTitleTemplate : String
  prBodyTemplate : String
  sourceConflictLabel : String
  targetConflictLabel : String
  actionsOctokit : Nat
  prOctokit : Nat
deriving DecidableEq, Repr

/-- Remote requests a run can issue. -/
inductive Action where
  | getBranchReq (branch : String)
  | createRef (branch : String) (sha : String)
  | mergeCall (base : String) (head : String)
  | listPulls (base : String) (head : String)
  | createPull (head : String) (base : String)
  | updatePullState (cred : Nat) (number : Nat) (state : String)
  | addLabels (number : Nat) (label : String)
  | removeLabelReq (number : Nat) (label : String)
  | createComment (number : Nat) (body : String)
deriving DecidableEq, Repr

/-- The behaviour of the remote platform during one run: responses to every
request the program can make, keyed by the request arguments. -/
structure Env where
  /-- result of `repos.getBranch` for a branch name: its tip sha, or a failure -/
  branchSha : String → Except ApiError String
  /-- whether `git.createRef` fails for a given branch name -/
  createRefFails : String → Bool
  /-- raw result of `repos.merge base head`: a thrown error, or a status code -/
  mergeOutcome : String → String → Except ApiError Nat
  /-- result of `pulls.list` keyed by `(base, head)` -/
  pulls : String → String → List PR
  /-- the PR `pulls.create` returns, keyed by `(head, base)` -/
  createdPR : String → String → PR
  /-- whether `issues.addLabels` fails for a given label -/
  addLabelFails : String → Bool
  /-- whether `issues.removeLabel` fails for a given label -/
  removeLabelFails : String → Bool
  /-- whether `issues.createComment` fails -/
  commentFails : Bool
  /-- names from `repos.listBranches` -/
  branches : List String
  /-- the `minimatch` glob matcher (external library), applied to a name and a pattern -/
  matchGlob : String → String → Bool

/-- Characters the JavaScript regular-expression `.` does not match. -/
def isLineTerminator (c : Char) : Bool :=
  c = '\n' || c = '\r' || c = ' ' || c = ' '

/-- Strips an expected leading character sequence, returning the remainder. -/
def stripChars : List Char → List Char → Option (List Char)
  | [], cs => some cs
  | _ :: _, [] => none
  | p :: ps, c :: cs => if p = c then stripChars ps cs else none

/-- `refAsBranch` from the source: matches the ref against the JavaScript
regex `^refs\/heads\/(?<branch>.*)$`.  `.*` cannot cross a line terminator and
`$` (without the `m` flag) anchors at the very end of the string, so the match
succeeds exactly when the ref is `refs/heads/` followed by a terminator-free
remainder (possibly empty); the remainder is the captured branch name. -/
def refAsBranch (ref : String) : Option String :=
  match stripChars "refs/heads/".data ref.data with
  | none => none
  | some rest =>
      if rest.all (fun c => !isLineTerminator c) then some (String.mk rest) else none

/-- `branchAsRef` from the source. -/
def branchAsRef (branch : String) : String := "refs/heads/" ++ branch

/-- `branch.replace(/\//g, '-')` from the source. -/
def sanitize (s : String) : String :=
  String.mk (s.data.map fun c => if c = '/' then '-' else c)

/-- Intermediate branch name as computed in both reconciliation flows. -/
def intermediateName (src tgt : String) : String :=
  "merge/" ++ sanitize src ++ "_to_" ++ sanitize tgt

/-- `getBranch` from the source: any failure of the underlying lookup is
caught and replaced by one fixed error message. -/
def getBranch (env : Env) (branch : String) : Except String String :=
  match env.branchSha branch with
  | .ok data => .ok data
  | .error _ => .error ("Could not find target branch: " ++ branch)

/-- `createBranch` from the source: look the branch up; when absent, create it
at `sha`; report creation failure as one fixed error.  Returns whether a
branch was created, together with the requests issued. -/
def createBranch (env : Env) (branch sha : String) : Except String (Bool × List Action) :=
  match env.branchSha branch with
  | .ok _ => .ok (false, [Action.getBranchReq branch])
  | .error _ =>
      if env.createRefFails branch then
        .error ("Failed to create branch: " ++ branch)
      else
        .ok (true, [Action.getBranchReq branch, Action.createRef branch sha])

/-- `merge` from the source: the underlying `repos.merge` either throws (the
function has no catch, so the error propagates) or delivers a status code;
201 means a merge commit was created, 204 means the head was already merged,
and any other delivered status is logged and treated as "no kick needed". -/
def merge (env : Env) (base head : String) : Except ApiError Bool :=
  match env.mergeOutcome base head with
  | .error e => .error e
  | .ok status =>
      if status = 201 then .ok true
      else if status = 204 then .ok false
      else .ok false

/-- The note pushed when merging the source branch into the intermediate
branch failed (text from `reportConflicts`). -/
def sourceConflictNote (sourceBranch intermediateBranch : String) : String :=
  "Failed to merge `" ++ sourceBranch ++ "` into `" ++ intermediateBranch ++
    "`. Possibly a conflict? It may help to delete branch `" ++ intermediateBranch ++
    "` and re-run your `sync-branches` job in order to start fresh."

/-- The note pushed when merging the target branch into the intermediate
branch failed (text from `reportConflicts`). -/
def targetConflictNote (targetBranch intermediateBranch : String) : String :=
  "Failed to merge `" ++ targetBranch ++ "` into `" ++ intermediateBranch ++
    "`. Possibly a conflict? Check the status of this PR below."

/-- The notes accumulated by `reportConflicts` for a given conflict summary. -/
def conflictNotes (sourceBranch targetBranch intermediateBranch : String)
    (c : ConflictSummary) : List String :=
  (if c.sourceConflict then [sourceConflictNote sourceBranch intermediateBranch] else []) ++
    (if c.targetConflict then [targetConflictNote targetBranch intermediateBranch] else [])

/-- Mustache expansion of the `{{#notes}}- {{{.}}}{{/notes}}` section: one
bulleted line per note (section tags standing alone on their lines are
stripped together with their line break). -/
def renderNotes : List String → String
  | [] => ""
  | n :: ns => "- " ++ n ++ "\n" ++ renderNotes ns

/-- The body of the report comment built by `comment` from its notes. -/
def commentBody (notes : List String) : String :=
  "\n`sync-branches` Action reports the following:\n\n" ++ renderNotes notes

/-- `comment` from the source: posts nothing when there are no notes,
otherwise issues exactly one `createComment` request; a failure of that
request is caught and logged, so it changes neither control flow nor the
requests issued. -/
def comment (number : Nat) (notes : List String) : List Action :=
  if notes.isEmpty then []
  else [Action.createComment number (commentBody notes)]

/-- `applyLabel` from the source: skip when the configured label is empty or
the PR already carries it (judged from the PR object handed in); otherwise
issue an `addLabels` request.  The request's failure is caught and logged;
it only means the remote label set does not change.  `prLabels` is the label
list of the PR object (the decision input), `remoteLabels` the platform's
current label set for that PR. -/
def applyLabel (env : Env) (number : Nat) (prLabels remoteLabels : List String)
    (label : String) : List Action × List String :=
  if label = "" then ([], remoteLabels)
  else if prLabels.contains label then ([], remoteLabels)
  else ([Action.addLabels number label],
        if env.addLabelFails label then remoteLabels else remoteLabels ++ [label])

/-- `removeLabel` from the source: skip when the configured label is empty or
the PR does not carry it; otherwise issue a `removeLabel` request whose
failure is likewise caught and logged. -/
def removeLabel (env : Env) (number : Nat) (prLabels remoteLabels : List String)
    (label : String) : List Action × List String :=
  if label = "" then ([], remoteLabels)
  else if prLabels.contains label = false then ([], remoteLabels)
  else ([Action.removeLabelReq number label],
        if env.removeLabelFails label then remoteLabels else remoteLabels.erase label)

/-- `reportConflicts` from the source.  For the source dimension: a conflict
pushes a note and applies the source-conflict label, no conflict removes it;
then the same for the target dimension (both label calls receive the same PR
object, hence decide from its original label list); finally the accumulated
notes are posted as one comment.  Every sub-operation catches its own
failures, so this function always returns: the requests issued and the
platform's resulting label set. -/
def reportConflicts (env : Env) (ctx : EventContext) (pr : PR)
    (sourceBranch targetBranch intermediateBranch : String)
    (conflicts : ConflictSummary) : List Action × List String :=
  let step1 :=
    if conflicts.sourceConflict then
      applyLabel env pr.number pr.labels pr.labels ctx.sourceConflictLabel
    else
      removeLabel env pr.number pr.labels pr.labels ctx.sourceConflictLabel
  let step2 :=
    if conflicts.targetConflict then
      applyLabel env pr.number pr.labels step1.2 ctx.targetConflictLabel
    else
      removeLabel env pr.number pr.labels step1.2 ctx.targetConflictLabel
  let notes := conflictNotes sourceBranch targetBranch intermediateBranch conflicts
  (step1.1 ++ step2.1 ++ comment pr.number notes, step2.2)

/-- `kickCI` from the source: the function compares `actionsOctokit` with
`prOctokit`, but that branch only emits a debug log ("Skipping CI kick.");
control falls through to the close and reopen requests in every case, both
issued with the PR-creation client. -/
def kickCI (ctx : EventContext) (pull_number : Nat) : List Action :=
  [Action.updatePullState ctx.prOctokit pull_number "closed",
   Action.updatePullState ctx.prOctokit pull_number "open"]

/-- The defensive filter both flows apply to the `pulls.list` answer. -/
def matchingPRs (pulls : List PR) (head base : String) : List PR :=
  pulls.filter fun p => p.headRef == head && p.baseRef == base

/-- The intermediate-branch phase of `handlePushToSourceBranch`: fetch the
pushed branch's tip, ensure the intermediate branch exists at it, then merge
first the pushed branch and then the target branch into it, each in its own
try/catch recording a conflict.  `needsKick` is a single variable assigned by
both merges: the second assignment overwrites the first, so after a
successful second merge only that merge's result remains.  Returns
`(needsKick, conflicts, requests)`. -/
def sourceMergePhase (env : Env) (ctx : EventContext) (targetBranch head : String) :
    Except String (Bool × ConflictSummary × List Action) :=
  if ctx.useIntermediateBranch then
    match env.branchSha ctx.pushedBranch with
    | .error _ => .error ("Could not find target branch: " ++ ctx.pushedBranch)
    | .ok baseCommit =>
        match createBranch env head baseCommit with
        | .error msg => .error msg
        | .ok (_, trC) =>
            let m1 := merge env head ctx.pushedBranch
            let m2 := merge env head targetBranch
            let nk1 : Bool := match m1 with | .ok b => b | .error _ => false
            let sc : Bool := match m1 with | .ok _ => false | .error _ => true
            let nk : Bool := match m2 with | .ok b => b | .error _ => nk1
            let tc : Bool := match m2 with | .ok _ => false | .error _ => true
            .ok (nk, ⟨sc, tc⟩,
              Action.getBranchReq ctx.pushedBranch :: trC ++
                [Action.mergeCall head ctx.pushedBranch, Action.mergeCall head targetBranch])
  else
    .ok (false, ⟨false, false⟩, [])

/-- `handlePushToSourceBranch` from the source (final revision): verify the
target branch, compute the head branch, run the intermediate-branch phase,
list matching open PRs; against an existing PR report conflicts and then kick
and return a `PRUpdate` exactly when `needsKick` is set, else return nothing;
without an existing PR create the PR, report conflicts against it, and return
a `PRUpdate`. -/
def handlePushToSourceBranch (env : Env) (ctx : EventContext) (targetBranch : String) :
    Except String (Option PRUpdate) × List Action :=
  match getBranch env targetBranch with
  | .error msg => (.error msg, [Action.getBranchReq targetBranch])
  | .ok _ =>
      let head := if ctx.useIntermediateBranch then intermediateName ctx.pushedBranch targetBranch
                  else ctx.pushedBranch
      match sourceMergePhase env ctx targetBranch head with
      | .error msg => (.error msg, [Action.getBranchReq targetBranch])
      | .ok (needsKick, conflicts, trPhase) =>
          let tr1 := Action.getBranchReq targetBranch :: trPhase ++
            [Action.listPulls targetBranch head]
          let existing := matchingPRs (env.pulls targetBranch head) head targetBranch
          match existing.head? with
          | some pr =>
              let rc := reportConflicts env ctx pr ctx.pushedBranch targetBranch head conflicts
              if needsKick then
                (.ok (some ⟨ctx.pushedBranch, targetBranch, pr.headRef, pr.baseRef, pr.htmlUrl⟩),
                 tr1 ++ rc.1 ++ kickCI ctx pr.number)
              else
                (.ok none, tr1 ++ rc.1)
          | none =>
              let newPr := env.createdPR head targetBranch
              let rc := reportConflicts env ctx newPr ctx.pushedBranch targetBranch head conflicts
              (.ok (some ⟨ctx.pushedBranch, targetBranch, newPr.headRef, newPr.baseRef,
                     newPr.htmlUrl⟩),
               tr1 ++ Action.createPull head targetBranch :: rc.1)

/-- `handlePushToTargetBranch` from the source (final revision): a complete
no-op when no intermediate branch is used; otherwise look up the open PR for
`(head = intermediate name, base = pushed branch)` and return nothing when it
is absent; when present, merge the pushed branch into the intermediate branch
(a failure becomes a target conflict), report conflicts, and kick and return
a `PRUpdate` exactly when the merge created a commit. -/
def handlePushToTargetBranch (env : Env) (ctx : EventContext) (sourceBranch : String) :
    Except String (Option PRUpdate) × List Action :=
  if ctx.useIntermediateBranch = false then (.ok none, [])
  else
    let head := intermediateName sourceBranch ctx.pushedBranch
    let tr1 := [Action.listPulls ctx.pushedBranch head]
    let existing := matchingPRs (env.pulls ctx.pushedBranch head) head ctx.pushedBranch
    match existing.head? with
    | none => (.ok none, tr1)
    | some pr =>
        let m := merge env head ctx.pushedBranch
        let needsKick : Bool := match m with | .ok b => b | .error _ => false
        let tc : Bool := match m with | .ok _ => false | .error _ => true
        let rc := reportConflicts env ctx pr sourceBranch ctx.pushedBranch head ⟨false, tc⟩
        let tr2 := tr1 ++ Action.mergeCall head ctx.pushedBranch :: rc.1
        if needsKick then
          (.ok (some ⟨sourceBranch, ctx.pushedBranch, pr.headRef, pr.baseRef, pr.htmlUrl⟩),
           tr2 ++ kickCI ctx pr.number)
        else (.ok none, tr2)

/-- Target branches for the push-to-source phase: the branch list filtered by
the target pattern (the pushed branch is not excluded). -/
def targetsOf (env : Env) (ctx : EventContext) : List String :=
  env.branches.filter fun b => env.matchGlob b ctx.targetBranchPattern

/-- Source branches for the push-to-target phase. -/
def sourcesOf (env : Env) (ctx : EventContext) : List String :=
  env.branches.filter fun b => env.matchGlob b ctx.sourceBranchPattern

/-- Per-target outcomes of the push-to-source phase, in branch-list order;
empty when the pushed branch does not match the source pattern. -/
def sourceOutcomes (env : Env) (ctx : EventContext) : List (Except String (Option PRUpdate)) :=
  if env.matchGlob ctx.pushedBranch ctx.sourceBranchPattern then
    (targetsOf env ctx).map fun t => (handlePushToSourceBranch env ctx t).1
  else []

/-- Per-source outcomes of the push-to-target phase. -/
def targetOutcomes (env : Env) (ctx : EventContext) : List (Except String (Option PRUpdate)) :=
  if env.matchGlob ctx.pushedBranch ctx.targetBranchPattern then
    (sourcesOf env ctx).map fun s => (handlePushToTargetBranch env ctx s).1
  else []

/-- The orchestrator's per-iteration try/catch: a produced update is pushed
onto `syncedPRs`, a thrown error is logged via `setFailed` (modelled by the
failure flag) and the loop continues with the next iteration. -/
def collectLoop (outcomes : List (Except String (Option PRUpdate))) :
    List PRUpdate × Bool :=
  outcomes.foldl
    (fun acc o =>
      match o with
      | .ok (some u) => (acc.1 ++ [u], acc.2)
      | .ok none => acc
      | .error _ => (acc.1, true))
    ([], false)

/-- `updateSyncPRs` after the pushed branch has been determined: run the
push-to-source phase, then the push-to-target phase, collecting updates and
the failure flag; the collected list is emitted once as the `syncedPRs`
output. -/
def updateSyncPRs (env : Env) (ctx : EventContext) : List PRUpdate × Bool :=
  collectLoop (sourceOutcomes env ctx ++ targetOutcomes env ctx)

/-- The entry of `updateSyncPRs`: derive the pushed branch from the event ref
via `refAsBranch`; a nil result aborts the whole run with an error, otherwise
the run proceeds with the extracted branch name. -/
def runFromRef (env : Env) (ctx0 : EventContext) (ref : String) :
    Except String (List PRUpdate × Bool) :=
  match refAsBranch ref with
  | none => .error ("Unable to determine head branch. ref was " ++ ref ++
      ". Did you forget to limit the workflow to only branches?")
  | some b => .ok (updateSyncPRs env { ctx0 with pushedBranch := b })

/-! ### Sample remote behaviours and contexts used by concrete theorems -/

instance {ε α : Type} [DecidableEq ε] [DecidableEq α] : DecidableEq (Except ε α) := fun x y =>
  match x, y with
  | .ok a, .ok b =>
      if h : a = b then .isTrue (congrArg Except.ok h)
      else .isFalse (fun hh => h (Except.ok.inj hh))
  | .error a, .error b =>
      if h : a = b then .isTrue (congrArg Except.error h)
      else .isFalse (fun hh => h (Except.error.inj hh))
  | .ok _, .error _ => .isFalse (fun hh => Except.noConfusion hh)
  | .error _, .ok _ => .isFalse (fun hh => Except.noConfusion hh)

/-- A remote on which every branch resolves, the intermediate branch already
exists, every merge reports 201 (a merge commit was created), and an open PR
numbered 7 exists for every `(base, head)` pair queried. -/
def envKick : Env :=
  { branchSha := fun _ => .ok "sha0"
  , createRefFails := fun _ => false
  , mergeOutcome := fun _ _ => .ok 201
  , pulls := fun base head =>
      [{ number := 7, headRef := head, baseRef := base, htmlUrl := "u7", labels := [] }]
  , createdPR := fun head base =>
      { number := 9, headRef := head, baseRef := base, htmlUrl := "u9", labels := [] }
  , addLabelFails := fun _ => false
  , removeLabelFails := fun _ => false
  , commentFails := false
  , branches := ["dev", "main"]
  , matchGlob := fun _ _ => true }

/-- A run whose `PR_CREATE_TOKEN` was absent: both Octokit names denote the
same object (`prOctokit = actionsOctokit`), triggered by a push to `dev`. -/
def ctxSame : EventContext :=
  { owner := "o", repo := "r", pushedBranch := "dev", useIntermediateBranch := true,
    sourceBranchPattern := "dev", targetBranchPattern := "main",
    prTitleTemplate := "t", prBodyTemplate := "b",
    sourceConflictLabel := "", targetConflictLabel := "",
    actionsOctokit := 0, prOctokit := 0 }

/-- The same run, triggered by a push to the target branch `main`. -/
def ctxSameTarget : EventContext := { ctxSame with pushedBranch := "main" }

/-- A remote where merging `dev` into the intermediate branch creates a merge
commit (201) but merging any other branch into it is a no-op (204). -/
def envOverwrite : Env :=
  { envKick with mergeOutcome := fun _ head => if head = "dev" then .ok 201 else .ok 204 }

/-- A run with a distinct PAT for PR creation: the two Octokit objects differ. -/
def ctxDistinct : EventContext := { ctxSame with prOctokit := 1 }

/-- Recognizes a `pulls.update` state-change request (the close/reopen kick). -/
def isKickRequest : Action → Bool
  | .updatePullState _ _ _ => true
  | _ => false

/-! ### Claims -/

/-- Claim C1: the claim says a close+reopen kick never happens when the
inspection credential and the PR-creation credential are the same object.
The code violates this: `kickCI` compares the two clients but the comparison
only logs, so on a run with identical credentials in which a merge created a
commit, both reconciliation flows still close and reopen the PR.  This
theorem evaluates both flows at such a run: the credentials are equal and the
trace contains the `closed` and `open` state transitions, issued with the
shared credential. -/
theorem kick_fires_with_identical_credentials :
    ctxSame.actionsOctokit = ctxSame.prOctokit ∧
    Action.updatePullState ctxSame.prOctokit 7 "closed" ∈
      (handlePushToSourceBranch envKick ctxSame "main").2 ∧
    Action.updatePullState ctxSame.prOctokit 7 "open" ∈
      (handlePushToSourceBranch envKick ctxSame "main").2 ∧
    Action.updatePullState ctxSameTarget.prOctokit 7 "closed" ∈
      (handlePushToTargetBranch envKick ctxSameTarget "dev").2 ∧
    Action.updatePullState ctxSameTarget.prOctokit 7 "open" ∈
      (handlePushToTargetBranch envKick ctxSameTarget "dev").2 := by
  decide

/-- Claim C2: the claim says that with an existing open PR the flow kicks and
returns a `PRUpdate` iff some merge created a commit and the credentials
differ.  The code violates this: `needsKick` is overwritten by the second
merge, so when merging the pushed branch created a commit (201) but merging
the target branch was a no-op (204), the flow — despite distinct credentials
and a matching open PR — issues no kick and returns nothing. -/
theorem source_flow_overwrites_needsKick :
    envOverwrite.mergeOutcome (intermediateName "dev" "main") "dev" = .ok 201 ∧
    envOverwrite.mergeOutcome (intermediateName "dev" "main") "main" = .ok 204 ∧
    ctxDistinct.actionsOctokit ≠ ctxDistinct.prOctokit ∧
    matchingPRs (envOverwrite.pulls "main" (intermediateName "dev" "main"))
      (intermediateName "dev" "main") "main" ≠ [] ∧
    (handlePushToSourceBranch envOverwrite ctxDistinct "main").1 = .ok none ∧
    (handlePushToSourceBranch envOverwrite ctxDistinct "main").2.countP isKickRequest = 0 := by
  decide

/-- Claim C5 as stated: `merge` returns true exactly on status 201, false
exactly on status 204, and fails with an error in every other outcome,
including an unexpected status. -/
def mergeTriStateClaim : Prop :=
  ∀ (env : Env) (base head : String),
    ((merge env base head = .ok true) ↔ env.mergeOutcome base head = .ok 201) ∧
    ((merge env base head = .ok false) ↔ env.mergeOutcome base head = .ok 204) ∧
    ((∃ e, merge env base head = .error e) ↔
      (env.mergeOutcome base head ≠ .ok 201 ∧ env.mergeOutcome base head ≠ .ok 204))

/-- A remote delivering an undocumented success status 200 to `repos.merge`. -/
def envStatus200 : Env := { envKick with mergeOutcome := fun _ _ => .ok 200 }

/-- Claim C5, counterexample: at a delivered status 200 — neither 201 nor 204 —
the code logs and returns false instead of failing, refuting the claim. -/
theorem merge_unexpected_status_counterexample : ¬ mergeTriStateClaim := by
  intro h
  have h2 := ((h envStatus200 "b" "h").2.1).mp rfl
  have h3 : (200 : Nat) = 204 := by injection h2
  omega

/-- Claim C5, amended: `merge` returns true exactly when the client delivered
status 201; an error thrown by the underlying `repos.merge` request
(permission trouble, a real merge conflict — non-2xx responses) propagates
unchanged; and `merge` returns false exactly when the client delivered any
status other than 201 (the documented 204, or an undocumented status, which
is logged and treated as "no kick needed" rather than as a failure). -/
theorem merge_amended_tri_state :
    ∀ (env : Env) (base head : String),
      ((merge env base head = .ok true) ↔ env.mergeOutcome base head = .ok 201) ∧
      (∀ e, (merge env base head = .error e) ↔ env.mergeOutcome base head = .error e) ∧
      ((merge env base head = .ok false) ↔
        ∃ s, env.mergeOutcome base head = .ok s ∧ s ≠ 201) := by
  intro env base head
  rcases hm : env.mergeOutcome base head with e | s
  · refine ⟨by simp [merge, hm], fun e2 => by simp [merge, hm], by simp [merge, hm]⟩
  · by_cases h1 : s = 201
    · subst h1
      exact ⟨by simp [merge, hm], fun e2 => by simp [merge, hm], by simp [merge, hm]⟩
    · by_cases h4 : s = 204
      · subst h4
        exact ⟨by simp [merge, hm], fun e2 => by simp [merge, hm],
          by simp [merge, hm]⟩
      · exact ⟨by simp [merge, hm, h1, h4], fun e2 => by simp [merge, hm, h1, h4],
          by simp [merge, hm, h1, h4]⟩

/-- Claim C6: with `useIntermediateBranch = false` the push-to-target flow
returns nothing immediately and issues no remote request at all; with
`useIntermediateBranch = true` but no matching open PR it returns nothing
after the single `pulls.list` read, in particular without attempting any
merge. -/
theorem target_flow_noop_conditions (env : Env) (ctx : EventContext) (src : String) :
    (ctx.useIntermediateBranch = false →
      handlePushToTargetBranch env ctx src = (.ok none, [])) ∧
    (ctx.useIntermediateBranch = true →
      matchingPRs (env.pulls ctx.pushedBranch (intermediateName src ctx.pushedBranch))
        (intermediateName src ctx.pushedBranch) ctx.pushedBranch = [] →
      handlePushToTargetBranch env ctx src =
        (.ok none, [Action.listPulls ctx.pushedBranch (intermediateName src ctx.pushedBranch)])) := by
  constructor
  · intro h
    simp [handlePushToTargetBranch, h]
  · intro h hm
    simp [handlePushToTargetBranch, h, hm]

/-- The same direct-PR run (`useIntermediateBranch = false`). -/
def ctxDirect : EventContext := { ctxSame with useIntermediateBranch := false }

/-- A remote on which `pulls.list` always comes back empty. -/
def envNoPR : Env := { envKick with pulls := fun _ _ => [] }

/-- Witness for claim C6 at concrete runs: the direct-PR case and the
no-matching-PR case both return nothing. -/
theorem target_flow_noop_conditions_witness :
    handlePushToTargetBranch envKick ctxDirect "dev" = (.ok none, []) ∧
    handlePushToTargetBranch envNoPR ctxSameTarget "dev" =
      (.ok none, [Action.listPulls "main" (intermediateName "dev" "main")]) :=
  ⟨(target_flow_noop_conditions envKick ctxDirect "dev").1 rfl,
   (target_flow_noop_conditions envNoPR ctxSameTarget "dev").2 rfl (by decide)⟩

/-- The update an iteration's outcome contributes to the `syncedPRs` output. -/
def updateOf : Except String (Option PRUpdate) → Option PRUpdate
  | .ok (some u) => some u
  | _ => none

/-- Whether an iteration's outcome was a thrown error (caught by the
per-iteration wrapper, which then calls `setFailed`). -/
def isFailedOutcome : Except String (Option PRUpdate) → Bool
  | .error _ => true
  | _ => false

/-- Characterization of `collectLoop`'s fold. -/
lemma collectLoop_go (outs : List (Except String (Option PRUpdate))) :
    ∀ (l : List PRUpdate) (b : Bool),
      outs.foldl
        (fun acc o =>
          match o with
          | .ok (some u) => (acc.1 ++ [u], acc.2)
          | .ok none => acc
          | .error _ => (acc.1, true))
        (l, b)
      = (l ++ outs.filterMap updateOf, b || outs.any isFailedOutcome) := by
  induction outs with
  | nil => intro l b; simp [updateOf, isFailedOutcome]
  | cons o os ih =>
      intro l b
      cases o with
      | error e => simp [ih, updateOf, isFailedOutcome]
      | ok v =>
          cases v with
          | none => simp [ih, updateOf, isFailedOutcome]
          | some u => simp [ih, updateOf, isFailedOutcome]

/-- `collectLoop` collects, in order, the updates of the successful
iterations and flags whether any iteration failed. -/
lemma collectLoop_eq (outs : List (Except String (Option PRUpdate))) :
    collectLoop outs = (outs.filterMap updateOf, outs.any isFailedOutcome) := by
  have h := collectLoop_go outs [] false
  simpa [collectLoop] using h

/-- Claim C7: an error in one iteration only marks the run as failed; every
other iteration is still processed and the run emits, in iteration order, the
updates of all successful iterations as the single `syncedPRs` output.
Part one characterizes the whole orchestrator; part two shows explicitly that
an erroring iteration placed anywhere in the loop leaves the collected output
exactly that of the remaining iterations, with the failure flag set. -/
theorem orchestrator_isolates_iteration_failures :
    (∀ (env : Env) (ctx : EventContext),
      updateSyncPRs env ctx =
        ((sourceOutcomes env ctx ++ targetOutcomes env ctx).filterMap updateOf,
         (sourceOutcomes env ctx ++ targetOutcomes env ctx).any isFailedOutcome)) ∧
    (∀ (pre post : List (Except String (Option PRUpdate))) (e : String),
      collectLoop (pre ++ .error e :: post) =
        ((pre ++ post).filterMap updateOf, true)) := by
  constructor
  · intro env ctx
    exact collectLoop_eq _
  · intro pre post e
    rw [collectLoop_eq]
    simp [List.filterMap_append, List.any_append, updateOf, isFailedOutcome]

/-- Claim C10: `getBranch` converts every failure of the underlying lookup —
missing branch, permission failure, network failure alike — into the one
error `Could not find target branch: <branch>`, so distinct failure causes
are indistinguishable to the caller. -/
theorem getBranch_collapses_all_failures
    (env env2 : Env) (branch : String) (e e2 : ApiError)
    (h : env.branchSha branch = .error e) :
    getBranch env branch = .error ("Could not find target branch: " ++ branch) ∧
    (env2.branchSha branch = .error e2 → getBranch env branch = getBranch env2 branch) := by
  constructor
  · simp [getBranch, h]
  · intro h2
    simp [getBranch, h, h2]

/-- A remote whose branch lookups fail with a permission error. -/
def envPermissionDenied : Env := { envKick with branchSha := fun _ => .error .permission }

/-- A remote whose branch lookups fail with "not found". -/
def envBranchMissing : Env := { envKick with branchSha := fun _ => .error .notFound }

/-- Witness for claim C10: a permission failure and a missing branch produce
the same "Could not find target branch" error. -/
theorem getBranch_collapses_all_failures_witness :
    getBranch envPermissionDenied "main" =
      .error ("Could not find target branch: " ++ "main") ∧
    getBranch envPermissionDenied "main" = getBranch envBranchMissing "main" :=
  ⟨(getBranch_collapses_all_failures envPermissionDenied envBranchMissing "main"
      .permission .notFound rfl).1,
   (getBranch_collapses_all_failures envPermissionDenied envBranchMissing "main"
      .permission .notFound rfl).2 rfl⟩

/-- Stripping a prefix succeeds exactly on lists that start with it. -/
lemma stripChars_append (ps : List Char) :
    ∀ rest : List Char, stripChars ps (ps ++ rest) = some rest := by
  induction ps with
  | nil => intro rest; simp [stripChars]
  | cons p ps ih => intro rest; simp [stripChars, ih]

/-- Conversely, a successful strip exhibits the input as prefix plus remainder. -/
lemma stripChars_some (ps : List Char) :
    ∀ (cs rest : List Char), stripChars ps cs = some rest → cs = ps ++ rest := by
  induction ps with
  | nil => intro cs rest h; simp [stripChars] at h; simp [h]
  | cons p ps ih =>
      intro cs rest h
      cases cs with
      | nil => simp [stripChars] at h
      | cons c cs =>
          simp only [stripChars] at h
          by_cases hpc : p = c
          · subst hpc
            simp at h
            simpa using ih cs rest h
          · simp [hpc] at h

/-- Claim C9, counterexample: `refs/heads/a<newline>b` begins with the
`refs/heads/` prefix, yet `refAsBranch` returns null for it — the regex `.*`
cannot cross the line feed — refuting "null is returned only when the ref
lacks the refs/heads/ prefix entirely". -/
theorem refAsBranch_newline_counterexample :
    (∃ rest, ("refs/heads/a\nb").data = ("refs/heads/").data ++ rest) ∧
    refAsBranch "refs/heads/a\nb" = none :=
  ⟨⟨['a', '\n', 'b'], by decide⟩, by decide⟩

/-- Claim C9, amended: `refAsBranch` maps `refs/heads/` to the empty branch
name (not null), so a push whose ref is exactly `refs/heads/` passes the nil
check and the run proceeds with an empty pushed-branch name; null is returned
when the ref lacks the `refs/heads/` prefix, and also when the remainder
after the prefix contains a line-terminator character (which no git branch
name can contain). -/
theorem refAsBranch_amended
    (env : Env) (ctx0 : EventContext) (ref : String) (rest : List Char) :
    refAsBranch "refs/heads/" = some "" ∧
    runFromRef env ctx0 "refs/heads/" =
      .ok (updateSyncPRs env { ctx0 with pushedBranch := "" }) ∧
    (ref.data = "refs/heads/".data ++ rest →
      (rest.all fun c => !isLineTerminator c) = true →
      refAsBranch ref = some (String.mk rest)) ∧
    (ref.data = "refs/heads/".data ++ rest →
      (rest.all fun c => !isLineTerminator c) = false →
      refAsBranch ref = none) ∧
    ((¬ ∃ r, ref.data = "refs/heads/".data ++ r) → refAsBranch ref = none) := by
  refine ⟨by decide, ?_, ?_, ?_, ?_⟩
  · unfold runFromRef
    rw [show refAsBranch "refs/heads/" = some "" from by decide]
  · intro hdata hclean
    unfold refAsBranch
    rw [hdata, stripChars_append]
    simp [hclean]
  · intro hdata hdirty
    unfold refAsBranch
    rw [hdata, stripChars_append]
    simp [hdirty]
  · intro hnot
    unfold refAsBranch
    rcases hs : stripChars "refs/heads/".data ref.data with _ | r
    · rfl
    · exact absurd ⟨r, stripChars_some _ _ _ hs⟩ hnot

/-- Witness for claim C9 at concrete refs: `refs/heads/x` yields branch `x`,
`refs/tags/v1` yields null. -/
theorem refAsBranch_amended_witness :
    refAsBranch "refs/heads/" = some "" ∧
    refAsBranch "refs/heads/x" = some (String.mk ['x']) ∧
    refAsBranch "refs/tags/v1" = none :=
  ⟨(refAsBranch_amended envKick ctxSame "refs/heads/x" ['x']).1,
   (refAsBranch_amended envKick ctxSame "refs/heads/x" ['x']).2.2.1
     (by decide) (by decide),
   (refAsBranch_amended envKick ctxSame "refs/tags/v1" []).2.2.2.2
     (by
       rintro ⟨r, h⟩
       have h1 : stripChars "refs/heads/".data "refs/tags/v1".data = some r := by
         rw [h]; exact stripChars_append _ r
       have h2 : stripChars "refs/heads/".data "refs/tags/v1".data = none := by decide
       rw [h2] at h1
       exact Option.noConfusion h1)⟩

/-! ### Conflict-reporter lemmas -/

/-- Recognizes a label request. -/
def isLabelRequest : Action → Bool
  | .addLabels _ _ => true
  | .removeLabelReq _ _ => true
  | _ => false

/-- Recognizes a comment request. -/
def isCommentRequest : Action → Bool
  | .createComment _ _ => true
  | _ => false

/-- The same remote with every label/comment sub-operation succeeding. -/
def noFailures (env : Env) : Env :=
  { env with addLabelFails := fun _ => false, removeLabelFails := fun _ => false,
             commentFails := false }

lemma contains_eq_true_iff {l : List String} {a : String} :
    l.contains a = true ↔ a ∈ l := by
  simp

lemma applyLabel_fst_eq (env env2 : Env) (n : Nat) (pl rl rl2 : List String) (l : String) :
    (applyLabel env n pl rl l).1 = (applyLabel env2 n pl rl2 l).1 := by
  unfold applyLabel
  split_ifs <;> rfl

lemma removeLabel_fst_eq (env env2 : Env) (n : Nat) (pl rl rl2 : List String) (l : String) :
    (removeLabel env n pl rl l).1 = (removeLabel env2 n pl rl2 l).1 := by
  unfold removeLabel
  split_ifs <;> rfl

lemma applyLabel_fst_shape (env : Env) (n : Nat) (pl rl : List String) (l : String) :
    (applyLabel env n pl rl l).1 = [] ∨ (applyLabel env n pl rl l).1 = [Action.addLabels n l] := by
  unfold applyLabel
  split_ifs <;> simp

lemma removeLabel_fst_shape (env : Env) (n : Nat) (pl rl : List String) (l : String) :
    (removeLabel env n pl rl l).1 = [] ∨
      (removeLabel env n pl rl l).1 = [Action.removeLabelReq n l] := by
  unfold removeLabel
  split_ifs <;> simp

lemma applyLabel_snd_shape (env : Env) (n : Nat) (pl rl : List String) (l : String) :
    (applyLabel env n pl rl l).2 = rl ∨ (applyLabel env n pl rl l).2 = rl ++ [l] := by
  unfold applyLabel
  split_ifs <;> simp

lemma removeLabel_snd_shape (env : Env) (n : Nat) (pl rl : List String) (l : String) :
    (removeLabel env n pl rl l).2 = rl ∨ (removeLabel env n pl rl l).2 = rl.erase l := by
  unfold removeLabel
  split_ifs <;> simp

lemma mem_applyLabel_snd_of_ne (env : Env) (n : Nat) (pl rl : List String) {x l : String}
    (hxl : x ≠ l) : x ∈ (applyLabel env n pl rl l).2 ↔ x ∈ rl := by
  rcases applyLabel_snd_shape env n pl rl l with h | h
  · rw [h]
  · rw [h]
    simp [hxl]

lemma mem_removeLabel_snd_of_ne (env : Env) (n : Nat) (pl rl : List String) {x l : String}
    (hxl : x ≠ l) : x ∈ (removeLabel env n pl rl l).2 ↔ x ∈ rl := by
  rcases removeLabel_snd_shape env n pl rl l with h | h
  · rw [h]
  · rw [h]
    exact List.mem_erase_of_ne hxl

lemma applyLabel_mem_self (env : Env) (n : Nat) (pl rl : List String) (l : String)
    (hl : l ≠ "") (hf : env.addLabelFails l = false) (hagree : l ∈ pl → l ∈ rl) :
    l ∈ (applyLabel env n pl rl l).2 := by
  unfold applyLabel
  rw [if_neg hl]
  by_cases hc : pl.contains l = true
  · simp only [hc, if_true]
    exact hagree (contains_eq_true_iff.mp hc)
  · simp only [hc]
    simp [hf]

lemma removeLabel_not_mem_self (env : Env) (n : Nat) (pl rl : List String) (l : String)
    (hl : l ≠ "") (hf : env.removeLabelFails l = false) (hagree : l ∈ rl → l ∈ pl)
    (hnd : rl.Nodup) : l ∉ (removeLabel env n pl rl l).2 := by
  unfold removeLabel
  rw [if_neg hl]
  by_cases hc : pl.contains l = true
  · simp only [hc]
    simp [hf]
    exact hnd.not_mem_erase
  · simp only [hc]
    simp
    intro hmem
    exact hc (contains_eq_true_iff.mpr (hagree hmem))

lemma applyLabel_snd_nodup (env : Env) (n : Nat) (pl rl : List String) (l : String)
    (hnd : rl.Nodup) (hagree : l ∈ pl ↔ l ∈ rl) : (applyLabel env n pl rl l).2.Nodup := by
  unfold applyLabel
  split_ifs with h0 hc hfail
  · exact hnd
  · exact hnd
  · exact hnd
  · simp only
    have hnotmem : l ∉ rl := fun hm =>
      hc (contains_eq_true_iff.mpr (hagree.mpr hm))
    simp [List.nodup_append, hnd, hnotmem]

lemma removeLabel_snd_nodup (env : Env) (n : Nat) (pl rl : List String) (l : String)
    (hnd : rl.Nodup) : (removeLabel env n pl rl l).2.Nodup := by
  rcases removeLabel_snd_shape env n pl rl l with h | h <;> rw [h]
  · exact hnd
  · exact hnd.erase l

lemma applyLabel_fst_closed (env : Env) (n : Nat) (pl rl : List String) (l : String) :
    (applyLabel env n pl rl l).1 =
      if l = "" then [] else if pl.contains l then [] else [Action.addLabels n l] := by
  unfold applyLabel
  split_ifs <;> rfl

lemma removeLabel_fst_closed (env : Env) (n : Nat) (pl rl : List String) (l : String) :
    (removeLabel env n pl rl l).1 =
      if l = "" then []
      else if pl.contains l = false then [] else [Action.removeLabelReq n l] := by
  unfold removeLabel
  split_ifs <;> rfl

lemma reportConflicts_fst_eq (env env2 : Env) (ctx : EventContext) (pr : PR)
    (s t i : String) (c : ConflictSummary) :
    (reportConflicts env ctx pr s t i c).1 = (reportConflicts env2 ctx pr s t i c).1 := by
  rcases c with ⟨sc, tc⟩
  cases sc <;> cases tc <;>
    simp [reportConflicts, applyLabel_fst_closed, removeLabel_fst_closed]

lemma reportConflicts_comment_count (env : Env) (ctx : EventContext) (pr : PR)
    (s t i : String) (c : ConflictSummary) :
    (reportConflicts env ctx pr s t i c).1.countP isCommentRequest =
      if conflictNotes s t i c = [] then 0 else 1 := by
  rcases c with ⟨sc, tc⟩
  cases sc <;> cases tc <;>
    simp [reportConflicts, conflictNotes, comment, applyLabel_fst_closed,
      removeLabel_fst_closed, List.countP_append, List.countP_cons, isCommentRequest]
  · exact ⟨fun a _ _ ha => by subst ha; rfl, fun a _ _ ha => by subst ha; rfl⟩
  · split_ifs <;> rfl
  · split_ifs <;> rfl
  · split_ifs <;> rfl

lemma reportConflicts_comment_mem (env : Env) (ctx : EventContext) (pr : PR)
    (s t i : String) (c : ConflictSummary) (h : conflictNotes s t i c ≠ []) :
    Action.createComment pr.number (commentBody (conflictNotes s t i c)) ∈
      (reportConflicts env ctx pr s t i c).1 := by
  have hne : (conflictNotes s t i c).isEmpty = false := by
    cases hn : conflictNotes s t i c with
    | nil => exact absurd hn h
    | cons a as => rfl
  simp [reportConflicts, comment, hne]

lemma reportConflicts_empty_labels (env : Env) (ctx : EventContext) (pr : PR)
    (s t i : String) (c : ConflictSummary)
    (h1 : ctx.sourceConflictLabel = "") (h2 : ctx.targetConflictLabel = "") :
    (reportConflicts env ctx pr s t i c).1.countP isLabelRequest = 0 ∧
    (reportConflicts env ctx pr s t i c).2 = pr.labels := by
  rcases c with ⟨sc, tc⟩
  cases sc <;> cases tc <;>
    simp [reportConflicts, h1, h2, applyLabel, removeLabel, comment,
      List.countP_append, List.countP_cons, isLabelRequest]

lemma reportConflicts_source_label_skipped (env : Env) (ctx : EventContext) (pr : PR)
    (s t i : String) (c : ConflictSummary) (h1 : ctx.sourceConflictLabel = "") :
    ∀ n l, (Action.addLabels n l ∈ (reportConflicts env ctx pr s t i c).1 ∨
        Action.removeLabelReq n l ∈ (reportConflicts env ctx pr s t i c).1) →
      l = ctx.targetConflictLabel := by
  rcases c with ⟨sc, tc⟩
  intro n l h
  cases sc <;> cases tc <;>
    simp [reportConflicts, h1, applyLabel_fst_closed, removeLabel_fst_closed, comment] at h <;>
    exact h.2.2.2

lemma reportConflicts_target_label_skipped (env : Env) (ctx : EventContext) (pr : PR)
    (s t i : String) (c : ConflictSummary) (h2 : ctx.targetConflictLabel = "") :
    ∀ n l, (Action.addLabels n l ∈ (reportConflicts env ctx pr s t i c).1 ∨
        Action.removeLabelReq n l ∈ (reportConflicts env ctx pr s t i c).1) →
      l = ctx.sourceConflictLabel := by
  rcases c with ⟨sc, tc⟩
  intro n l h
  cases sc <;> cases tc <;>
    simp [reportConflicts, h2, applyLabel_fst_closed, removeLabel_fst_closed, comment] at h <;>
    exact h.2.2.2

lemma reportConflicts_labels_spec (env : Env) (ctx : EventContext) (pr : PR)
    (s t i : String) (c : ConflictSummary)
    (hf1 : env.addLabelFails ctx.sourceConflictLabel = false)
    (hf2 : env.addLabelFails ctx.targetConflictLabel = false)
    (hf3 : env.removeLabelFails ctx.sourceConflictLabel = false)
    (hf4 : env.removeLabelFails ctx.targetConflictLabel = false)
    (hs : ctx.sourceConflictLabel ≠ "") (ht : ctx.targetConflictLabel ≠ "")
    (hst : ctx.sourceConflictLabel ≠ ctx.targetConflictLabel)
    (hnd : pr.labels.Nodup) :
    ((ctx.sourceConflictLabel ∈ (reportConflicts env ctx pr s t i c).2 ↔
        c.sourceConflict = true) ∧
     (ctx.targetConflictLabel ∈ (reportConflicts env ctx pr s t i c).2 ↔
        c.targetConflict = true)) := by
  rcases c with ⟨sc, tc⟩
  have hts : ctx.targetConflictLabel ≠ ctx.sourceConflictLabel := fun h => hst h.symm
  cases sc <;> cases tc <;> simp [reportConflicts]
  · -- no conflict on either side: both labels end up absent
    have h1 : ctx.sourceConflictLabel ∉
        (removeLabel env pr.number pr.labels pr.labels ctx.sourceConflictLabel).2 :=
      removeLabel_not_mem_self env pr.number pr.labels pr.labels ctx.sourceConflictLabel
        hs hf3 (fun h => h) hnd
    have hnd1 := removeLabel_snd_nodup env pr.number pr.labels pr.labels
      ctx.sourceConflictLabel hnd
    refine ⟨fun hmem => h1 ((mem_removeLabel_snd_of_ne env pr.number pr.labels _ hst).mp hmem), ?_⟩
    exact removeLabel_not_mem_self env pr.number pr.labels _ ctx.targetConflictLabel
      ht hf4 (fun hm => (mem_removeLabel_snd_of_ne env pr.number pr.labels _ hts).mp hm) hnd1
  · -- target side conflicted only
    have h1 : ctx.sourceConflictLabel ∉
        (removeLabel env pr.number pr.labels pr.labels ctx.sourceConflictLabel).2 :=
      removeLabel_not_mem_self env pr.number pr.labels pr.labels ctx.sourceConflictLabel
        hs hf3 (fun h => h) hnd
    refine ⟨fun hmem => h1 ((mem_applyLabel_snd_of_ne env pr.number pr.labels _ hst).mp hmem), ?_⟩
    exact applyLabel_mem_self env pr.number pr.labels _ ctx.targetConflictLabel ht hf2
      (fun hm => (mem_removeLabel_snd_of_ne env pr.number pr.labels _ hts).mpr hm)
  · -- source side conflicted only
    have h1 : ctx.sourceConflictLabel ∈
        (applyLabel env pr.number pr.labels pr.labels ctx.sourceConflictLabel).2 :=
      applyLabel_mem_self env pr.number pr.labels pr.labels ctx.sourceConflictLabel
        hs hf1 (fun h => h)
    have hnd1 := applyLabel_snd_nodup env pr.number pr.labels pr.labels
      ctx.sourceConflictLabel hnd Iff.rfl
    refine ⟨(mem_removeLabel_snd_of_ne env pr.number pr.labels _ hst).mpr h1, ?_⟩
    exact removeLabel_not_mem_self env pr.number pr.labels _ ctx.targetConflictLabel
      ht hf4 (fun hm => (mem_applyLabel_snd_of_ne env pr.number pr.labels _ hts).mp hm) hnd1
  · -- both sides conflicted
    have h1 : ctx.sourceConflictLabel ∈
        (applyLabel env pr.number pr.labels pr.labels ctx.sourceConflictLabel).2 :=
      applyLabel_mem_self env pr.number pr.labels pr.labels ctx.sourceConflictLabel
        hs hf1 (fun h => h)
    refine ⟨(mem_applyLabel_snd_of_ne env pr.number pr.labels _ hst).mpr h1, ?_⟩
    exact applyLabel_mem_self env pr.number pr.labels _ ctx.targetConflictLabel ht hf2
      (fun hm => (mem_applyLabel_snd_of_ne env pr.number pr.labels _ hts).mpr hm)

/-- Claim C4: `reportConflicts` is best-effort and never propagates an error:
(1) which requests it issues never depends on sub-operation failures — a
failing label or comment request is swallowed and the remaining operations
still run; (2) it issues exactly one comment request when the accumulated
note list is non-empty and none when it is empty; (3) the posted comment
lists all accumulated notes; (4) when both configured label names are
empty, label operations are skipped entirely and the label set is untouched;
(5)–(6) when one configured label name is empty, no label request naming it
is ever issued — every label request names the other label; (7) when the
configured labels are distinct non-empty names and the sub-operations
succeed, each conflict label is present afterwards exactly when its side
conflicted. -/
theorem reportConflicts_contract :
    (∀ (env : Env) (ctx : EventContext) (pr : PR) (s t i : String) (c : ConflictSummary),
      (reportConflicts env ctx pr s t i c).1 =
        (reportConflicts (noFailures env) ctx pr s t i c).1) ∧
    (∀ (env : Env) (ctx : EventContext) (pr : PR) (s t i : String) (c : ConflictSummary),
      (reportConflicts env ctx pr s t i c).1.countP isCommentRequest =
        if conflictNotes s t i c = [] then 0 else 1) ∧
    (∀ (env : Env) (ctx : EventContext) (pr : PR) (s t i : String) (c : ConflictSummary),
      conflictNotes s t i c ≠ [] →
      Action.createComment pr.number (commentBody (conflictNotes s t i c)) ∈
        (reportConflicts env ctx pr s t i c).1) ∧
    (∀ (env : Env) (ctx : EventContext) (pr : PR) (s t i : String) (c : ConflictSummary),
      ctx.sourceConflictLabel = "" → ctx.targetConflictLabel = "" →
      (reportConflicts env ctx pr s t i c).1.countP isLabelRequest = 0 ∧
      (reportConflicts env ctx pr s t i c).2 = pr.labels) ∧
    (∀ (env : Env) (ctx : EventContext) (pr : PR) (s t i : String) (c : ConflictSummary),
      ctx.sourceConflictLabel = "" →
      ∀ n l, (Action.addLabels n l ∈ (reportConflicts env ctx pr s t i c).1 ∨
          Action.removeLabelReq n l ∈ (reportConflicts env ctx pr s t i c).1) →
        l = ctx.targetConflictLabel) ∧
    (∀ (env : Env) (ctx : EventContext) (pr : PR) (s t i : String) (c : ConflictSummary),
      ctx.targetConflictLabel = "" →
      ∀ n l, (Action.addLabels n l ∈ (reportConflicts env ctx pr s t i c).1 ∨
          Action.removeLabelReq n l ∈ (reportConflicts env ctx pr s t i c).1) →
        l = ctx.sourceConflictLabel) ∧
    (∀ (env : Env) (ctx : EventContext) (pr : PR) (s t i : String) (c : ConflictSummary),
      env.addLabelFails ctx.sourceConflictLabel = false →
      env.addLabelFails ctx.targetConflictLabel = false →
      env.removeLabelFails ctx.sourceConflictLabel = false →
      env.removeLabelFails ctx.targetConflictLabel = false →
      ctx.sourceConflictLabel ≠ "" → ctx.targetConflictLabel ≠ "" →
      ctx.sourceConflictLabel ≠ ctx.targetConflictLabel →
      pr.labels.Nodup →
      ((ctx.sourceConflictLabel ∈ (reportConflicts env ctx pr s t i c).2 ↔
          c.sourceConflict = true) ∧
       (ctx.targetConflictLabel ∈ (reportConflicts env ctx pr s t i c).2 ↔
          c.targetConflict = true))) :=
  ⟨fun env ctx pr s t i c => reportConflicts_fst_eq env (noFailures env) ctx pr s t i c,
   fun env ctx pr s t i c => reportConflicts_comment_count env ctx pr s t i c,
   fun env ctx pr s t i c h => reportConflicts_comment_mem env ctx pr s t i c h,
   fun env ctx pr s t i c h1 h2 => reportConflicts_empty_labels env ctx pr s t i c h1 h2,
   fun env ctx pr s t i c h1 => reportConflicts_source_label_skipped env ctx pr s t i c h1,
   fun env ctx pr s t i c h2 => reportConflicts_target_label_skipped env ctx pr s t i c h2,
   fun env ctx pr s t i c hf1 hf2 hf3 hf4 hs ht hst hnd =>
     reportConflicts_labels_spec env ctx pr s t i c hf1 hf2 hf3 hf4 hs ht hst hnd⟩

/-- A run configured with distinct conflict labels. -/
def ctxLabels : EventContext :=
  { ctxDistinct with sourceConflictLabel := "src-conflict",
                     targetConflictLabel := "tgt-conflict" }

/-- A PR carrying one unrelated label. -/
def prLabeled : PR :=
  { number := 7, headRef := "merge/dev_to_main", baseRef := "main", htmlUrl := "u7",
    labels := ["stale"] }

/-- Witness for claim C4 at a concrete source-side conflict: one comment is
posted listing the note, the source label ends up present, the target label
absent. -/
theorem reportConflicts_contract_witness :
    conflictNotes "dev" "main" "merge/dev_to_main" ⟨true, false⟩ ≠ [] ∧
    Action.createComment 7
        (commentBody (conflictNotes "dev" "main" "merge/dev_to_main" ⟨true, false⟩)) ∈
      (reportConflicts envKick ctxLabels prLabeled "dev" "main" "merge/dev_to_main"
        ⟨true, false⟩).1 ∧
    ("src-conflict" ∈
        (reportConflicts envKick ctxLabels prLabeled "dev" "main" "merge/dev_to_main"
          ⟨true, false⟩).2 ↔ true = true) ∧
    ("tgt-conflict" ∈
        (reportConflicts envKick ctxLabels prLabeled "dev" "main" "merge/dev_to_main"
          ⟨true, false⟩).2 ↔ false = true) :=
  ⟨by decide,
   reportConflicts_contract.2.2.1 envKick ctxLabels prLabeled "dev" "main"
     "merge/dev_to_main" ⟨true, false⟩ (by decide),
   (reportConflicts_contract.2.2.2.2.2.2 envKick ctxLabels prLabeled "dev" "main"
     "merge/dev_to_main" ⟨true, false⟩ rfl rfl rfl rfl (by decide) (by decide)
     (by decide) (by decide)).1,
   (reportConflicts_contract.2.2.2.2.2.2 envKick ctxLabels prLabeled "dev" "main"
     "merge/dev_to_main" ⟨true, false⟩ rfl rfl rfl rfl (by decide) (by decide)
     (by decide) (by decide)).2⟩

/-! ### Push-to-source flow under a source-side merge conflict -/

lemma handleSource_existingPR_trace (env : Env) (ctx : EventContext)
    (targetBranch : String) (pr : PR) (e : ApiError) (shaT shaP shaH : String)
    (hI : ctx.useIntermediateBranch = true)
    (hT : env.branchSha targetBranch = .ok shaT)
    (hP : env.branchSha ctx.pushedBranch = .ok shaP)
    (hH : env.branchSha (intermediateName ctx.pushedBranch targetBranch) = .ok shaH)
    (hM : env.mergeOutcome (intermediateName ctx.pushedBranch targetBranch)
            ctx.pushedBranch = .error e)
    (hPR : (matchingPRs
        (env.pulls targetBranch (intermediateName ctx.pushedBranch targetBranch))
        (intermediateName ctx.pushedBranch targetBranch) targetBranch).head? = some pr) :
    ∃ (tc : Bool) (tr : List Action),
      (handlePushToSourceBranch env ctx targetBranch).2 =
        (Action.getBranchReq targetBranch ::
          (Action.getBranchReq ctx.pushedBranch ::
             [Action.getBranchReq (intermediateName ctx.pushedBranch targetBranch)] ++
             [Action.mergeCall (intermediateName ctx.pushedBranch targetBranch) ctx.pushedBranch,
              Action.mergeCall (intermediateName ctx.pushedBranch targetBranch) targetBranch]) ++
          [Action.listPulls targetBranch (intermediateName ctx.pushedBranch targetBranch)]) ++
        (reportConflicts env ctx pr ctx.pushedBranch targetBranch
          (intermediateName ctx.pushedBranch targetBranch) ⟨true, tc⟩).1 ++ tr := by
  rcases hm2 : env.mergeOutcome (intermediateName ctx.pushedBranch targetBranch) targetBranch
    with e2 | st
  · exact ⟨true, [], by
      simp [handlePushToSourceBranch, getBranch, sourceMergePhase, createBranch, merge,
        hI, hT, hP, hH, hM, hm2, hPR]⟩
  · by_cases h201 : st = 201
    · exact ⟨false, kickCI ctx pr.number, by
        simp [handlePushToSourceBranch, getBranch, sourceMergePhase, createBranch, merge,
          hI, hT, hP, hH, hM, hm2, hPR, h201]⟩
    · exact ⟨false, [], by
        simp [handlePushToSourceBranch, getBranch, sourceMergePhase, createBranch, merge,
          hI, hT, hP, hH, hM, hm2, hPR, h201]⟩

lemma reportConflicts_addLabels_mem (env : Env) (ctx : EventContext) (pr : PR)
    (s t i : String) (c : ConflictSummary) (hsc : c.sourceConflict = true)
    (hL : ctx.sourceConflictLabel ≠ "") (hLn : ctx.sourceConflictLabel ∉ pr.labels) :
    Action.addLabels pr.number ctx.sourceConflictLabel ∈
      (reportConflicts env ctx pr s t i c).1 := by
  rcases c with ⟨sc, tc⟩
  simp only at hsc
  subst hsc
  have hc : pr.labels.contains ctx.sourceConflictLabel = false := by
    cases hcc : pr.labels.contains ctx.sourceConflictLabel
    · rfl
    · exact absurd (contains_eq_true_iff.mp hcc) hLn
  simp [reportConflicts, applyLabel_fst_closed, hL, hc]
  exact Or.inl hLn

lemma commentBody_contains_source (s i : String) (rest : List String) :
    ∃ pre post,
      (commentBody (sourceConflictNote s i :: rest)).data = pre ++ s.data ++ post :=
  ⟨"\n`sync-branches` Action reports the following:\n\n".data ++ "- ".data ++
     "Failed to merge `".data,
   "` into `".data ++ i.data ++
     "`. Possibly a conflict? It may help to delete branch `".data ++ i.data ++
     "` and re-run your `sync-branches` job in order to start fresh.".data ++
     "\n".data ++ (renderNotes rest).data,
   by simp [commentBody, renderNotes, sourceConflictNote, String.data_append]⟩

lemma reportConflicts_comment_contains_source (env : Env) (ctx : EventContext) (pr : PR)
    (s t i : String) (c : ConflictSummary) (hsc : c.sourceConflict = true) :
    ∃ body, Action.createComment pr.number body ∈ (reportConflicts env ctx pr s t i c).1 ∧
      ∃ pre post, body.data = pre ++ s.data ++ post := by
  rcases c with ⟨sc, tc⟩
  simp only at hsc
  subst hsc
  have hnotes : conflictNotes s t i ⟨true, tc⟩ =
      sourceConflictNote s i :: (if tc = true then [targetConflictNote t i] else []) := by
    simp [conflictNotes]
  refine ⟨commentBody (conflictNotes s t i ⟨true, tc⟩),
    reportConflicts_comment_mem env ctx pr s t i ⟨true, tc⟩ (by rw [hnotes]; simp), ?_⟩
  rw [hnotes]
  exact commentBody_contains_source s i _

/-- Claim C3: in the push-to-source flow with an intermediate branch, a
failing merge of the pushed branch into the intermediate branch does not
prevent the merge of the target branch into the intermediate branch — that
merge request is still issued — and the conflict is recorded: the
source-conflict label is applied to the open PR and a comment is posted whose
body contains the pushed (source) branch name. -/
theorem source_merge_conflict_reported (env : Env) (ctx : EventContext)
    (targetBranch : String) (pr : PR) (e : ApiError) (shaT shaP shaH : String)
    (hI : ctx.useIntermediateBranch = true)
    (hT : env.branchSha targetBranch = .ok shaT)
    (hP : env.branchSha ctx.pushedBranch = .ok shaP)
    (hH : env.branchSha (intermediateName ctx.pushedBranch targetBranch) = .ok shaH)
    (hM : env.mergeOutcome (intermediateName ctx.pushedBranch targetBranch)
            ctx.pushedBranch = .error e)
    (hPR : (matchingPRs
        (env.pulls targetBranch (intermediateName ctx.pushedBranch targetBranch))
        (intermediateName ctx.pushedBranch targetBranch) targetBranch).head? = some pr)
    (hL : ctx.sourceConflictLabel ≠ "")
    (hLn : ctx.sourceConflictLabel ∉ pr.labels) :
    Action.mergeCall (intermediateName ctx.pushedBranch targetBranch) targetBranch ∈
      (handlePushToSourceBranch env ctx targetBranch).2 ∧
    Action.addLabels pr.number ctx.sourceConflictLabel ∈
      (handlePushToSourceBranch env ctx targetBranch).2 ∧
    ∃ body, Action.createComment pr.number body ∈
        (handlePushToSourceBranch env ctx targetBranch).2 ∧
      ∃ pre post, body.data = pre ++ ctx.pushedBranch.data ++ post := by
  obtain ⟨tc, tr, htr⟩ := handleSource_existingPR_trace env ctx targetBranch pr e
    shaT shaP shaH hI hT hP hH hM hPR
  rw [htr]
  refine ⟨by simp, ?_, ?_⟩
  · have hmem := reportConflicts_addLabels_mem env ctx pr ctx.pushedBranch targetBranch
      (intermediateName ctx.pushedBranch targetBranch) ⟨true, tc⟩ rfl hL hLn
    simp only [List.mem_append]
    exact Or.inl (Or.inr hmem)
  · obtain ⟨body, hmem, hsub⟩ := reportConflicts_comment_contains_source env ctx pr
      ctx.pushedBranch targetBranch (intermediateName ctx.pushedBranch targetBranch)
      ⟨true, tc⟩ rfl
    exact ⟨body, by simp only [List.mem_append]; exact Or.inl (Or.inr hmem), hsub⟩

/-- A remote on which merging `dev` into any base fails (a conflict) while any
other merge is a no-op. -/
def envConflict : Env :=
  { envKick with mergeOutcome := fun _ head =>
      if head = "dev" then .error .permission else .ok 204 }

/-- Witness for claim C3 at a concrete conflicted run. -/
theorem source_merge_conflict_reported_witness :
    Action.mergeCall (intermediateName "dev" "main") "main" ∈
      (handlePushToSourceBranch envConflict ctxLabels "main").2 ∧
    Action.addLabels 7 "src-conflict" ∈
      (handlePushToSourceBranch envConflict ctxLabels "main").2 ∧
    ∃ body, Action.createComment 7 body ∈
        (handlePushToSourceBranch envConflict ctxLabels "main").2 ∧
      ∃ pre post, body.data = pre ++ ("dev").data ++ post :=
  source_merge_conflict_reported envConflict ctxLabels "main"
    ⟨7, intermediateName "dev" "main", "main", "u7", []⟩ .permission
    "sha0" "sha0" "sha0" rfl rfl rfl rfl (by decide) (by decide) (by decide) (by decide)

/-- Claim C8: when the pushed branch satisfies both the source and the target
pattern and appears in the repository's branch list, the computed target list
contains the pushed branch itself — nothing filters it out — so the
push-to-source flow runs with `targetBranch` equal to the pushed branch, and
with `useIntermediateBranch = false` and no existing PR the flow issues a
`pulls.create` request whose head equals its base. -/
theorem pushed_branch_can_target_itself (env : Env) (ctx : EventContext)
    (hs : env.matchGlob ctx.pushedBranch ctx.sourceBranchPattern = true)
    (ht : env.matchGlob ctx.pushedBranch ctx.targetBranchPattern = true)
    (hb : ctx.pushedBranch ∈ env.branches) :
    ctx.pushedBranch ∈ targetsOf env ctx ∧
    (handlePushToSourceBranch env ctx ctx.pushedBranch).1 ∈ sourceOutcomes env ctx ∧
    (∀ sha, ctx.useIntermediateBranch = false →
      env.branchSha ctx.pushedBranch = .ok sha →
      matchingPRs (env.pulls ctx.pushedBranch ctx.pushedBranch) ctx.pushedBranch
        ctx.pushedBranch = [] →
      Action.createPull ctx.pushedBranch ctx.pushedBranch ∈
        (handlePushToSourceBranch env ctx ctx.pushedBranch).2) := by
  have hmem : ctx.pushedBranch ∈ targetsOf env ctx :=
    List.mem_filter.mpr ⟨hb, ht⟩
  refine ⟨hmem, ?_, ?_⟩
  · unfold sourceOutcomes
    simp only [hs, if_true]
    exact List.mem_map_of_mem _ hmem
  · intro sha hIF hsha hnoPR
    simp [handlePushToSourceBranch, getBranch, hsha, sourceMergePhase, hIF, hnoPR]

/-- Witness for claim C8: a push to `dev` with both patterns matching `dev`
and no open PRs leads to a `pulls.create` request with head and base both
`dev`. -/
theorem pushed_branch_can_target_itself_witness :
    "dev" ∈ targetsOf envNoPR ctxDirect ∧
    (handlePushToSourceBranch envNoPR ctxDirect "dev").1 ∈ sourceOutcomes envNoPR ctxDirect ∧
    Action.createPull "dev" "dev" ∈ (handlePushToSourceBranch envNoPR ctxDirect "dev").2 :=
  ⟨(pushed_branch_can_target_itself envNoPR ctxDirect rfl rfl (by decide)).1,
   (pushed_branch_can_target_itself envNoPR ctxDirect rfl rfl (by decide)).2.1,
   (pushed_branch_can_target_itself envNoPR ctxDirect rfl rfl (by decide)).2.2
     "sha0" rfl rfl (by decide)⟩

end SyncBranches
